import Mathlib

/-!
Verification of the mem0-supabase memory core against its specification.

The development shallowly embeds the parts of the code base that the
properties below are about:

* `SurpriseEngine.evaluate`        — src/mem0/memory/surprise.py
* `RecollectionEngine._process_results` — src/mem0/recollection.py
  (the similarity/importance/recency ranking and the associative graph jump)
* the reconciliation loop of `SyncMemory._add_to_vector_store` together with
  `_create_memory`, `_update_memory`, `_delete_memory`
  — src/mem0/memory/sync_memory.py

Python dictionaries are modelled as association lists over a small JSON-like
value type, Python floats as rationals, and external collaborators
(embedder, clock, uuid source, md5, LLM, graph store) as explicit oracle
parameters.  Fallible paths are modelled with `Except`; every function here
is total, so a result that is not `.error` models a call that returns
without raising.
-/

namespace Mem0

/-- A JSON-like scalar stored in a payload dictionary. -/
inductive Value where
  | str (s : String)
  | num (q : ℚ)
  | flag (b : Bool)
  | null
deriving DecidableEq

/-- Python truthiness of a payload value. -/
def Value.truthy : Value → Bool
  | .str s => s ≠ ""
  | .num q => decide (q ≠ 0)
  | .flag b => b
  | .null => false

/-- A Python dict with string keys, as an association list in insertion order. -/
abbrev Dict := List (String × Value)

/-- Dictionary lookup, `d.get(k)`. -/
def dget (d : Dict) (k : String) : Option Value :=
  (d.find? (fun p => p.1 = k)).map (·.2)

/-- Dictionary lookup with default, `d.get(k, v)`. -/
def dgetD (d : Dict) (k : String) (v : Value) : Value :=
  (dget d k).getD v

/-- Key membership, `k in d`. -/
def dhas (d : Dict) (k : String) : Bool :=
  (dget d k).isSome

/-- Dictionary assignment `d[k] = v`: replace the first binding in place,
    else append at the end (Python insertion-order semantics). -/
def dset : Dict → String → Value → Dict
  | [], k, v => [(k, v)]
  | p :: rest, k, v => if p.1 = k then (k, v) :: rest else p :: dset rest k v

theorem dget_dset_self (d : Dict) (k : String) (v : Value) :
    dget (dset d k v) k = some v := by
  induction d with
  | nil => simp [dget, dset]
  | cons p rest ih =>
    by_cases h : p.1 = k
    · simp [dset, h, dget]
    · simp only [dset, if_neg h]
      simpa [dget, List.find?, h] using ih

theorem dget_dset_ne (d : Dict) (k k' : String) (v : Value) (h : k' ≠ k) :
    dget (dset d k' v) k = dget d k := by
  induction d with
  | nil => simp [dget, dset, List.find?, h]
  | cons p rest ih =>
    by_cases hp : p.1 = k'
    · simp [dset, hp, dget, List.find?, h, hp ▸ h]
    · simp only [dset, if_neg hp]
      by_cases hk : p.1 = k
      · simp [dget, List.find?, hk]
      · simpa [dget, List.find?, hk] using ih

theorem dhas_dset_ne (d : Dict) (k k' : String) (v : Value) (h : k' ≠ k) :
    dhas (dset d k' v) k = dhas d k := by
  simp [dhas, dget_dset_ne d k k' v h]

theorem dget_ite_dset (c : Prop) [Decidable c] (d : Dict) (k k' : String) (v : Value)
    (h : k' ≠ k) : dget (if c then dset d k' v else d) k = dget d k := by
  split
  · exact dget_dset_ne d k k' v h
  · rfl

theorem dhas_ite_dset (c : Prop) [Decidable c] (d : Dict) (k k' : String) (v : Value)
    (h : k' ≠ k) : dhas (if c then dset d k' v else d) k = dhas d k := by
  split
  · exact dhas_dset_ne d k k' v h
  · rfl

/-! ### Surprise engine (src/mem0/memory/surprise.py) -/

/-- Threshold configuration held by `SurpriseEngine`; `__init__` stores the
    caller's values without any validation (surprise.py lines 16-25). -/
structure SurpriseEngine where
  surpriseThreshold : ℚ
  flashbulbThreshold : ℚ
deriving DecidableEq

/-- `SurpriseEngine.__init__` with its default arguments
    `surprise_threshold=0.92`, `flashbulb_threshold=0.60`. -/
def SurpriseEngine.init (surpriseThreshold : ℚ := 92/100)
    (flashbulbThreshold : ℚ := 60/100) : SurpriseEngine :=
  ⟨surpriseThreshold, flashbulbThreshold⟩

/-- One entry of `nearby_memories`: a dict whose `id` and `score` keys may
    each be absent (`none`). -/
structure NearbyMem where
  id : Option String
  score : Option ℚ
deriving DecidableEq

/-- The result dict of `SurpriseEngine.evaluate`. -/
structure SurpriseAssessment where
  isSurprising : Bool
  isFlashbulb : Bool
  bestMatchId : Option String
  maxSimilarity : ℚ
deriving DecidableEq

/-- `SurpriseEngine.evaluate` (surprise.py lines 27-55).
    `max_similarity = max([m.get("score", 0.0) for m in nearby_memories])`;
    `best_match = next((m for m in nearby_memories if m.get("score") == max_similarity), None)`;
    the `.error` case models the uncaught `KeyError` raised by
    `best_match["id"]` when the selected best match has no `id` key. -/
def SurpriseEngine.evaluate (e : SurpriseEngine) (nearby : List NearbyMem) :
    Except String SurpriseAssessment :=
  match nearby with
  | [] => .ok ⟨true, true, none, 0⟩
  | m :: rest =>
    let maxSimilarity := rest.foldl (fun acc n => max acc (n.score.getD 0)) (m.score.getD 0)
    let isSurprising := decide (maxSimilarity < e.surpriseThreshold)
    let isFlashbulb := decide (maxSimilarity < e.flashbulbThreshold)
    match (m :: rest).find? (fun n => n.score = some maxSimilarity) with
    | none => .ok ⟨isSurprising, isFlashbulb, none, maxSimilarity⟩
    | some b =>
      match b.id with
      | some i => .ok ⟨isSurprising, isFlashbulb, some i, maxSimilarity⟩
      | none => .error "KeyError: id"

/-! ### Recollection engine (src/mem0/recollection.py)

Note: the shipped `_process_results` (lines 79-87) repeats the parameters
`results, limit` twice in its signature — a syntax-level slip.  Its
docstring and every call site (`recollect`, `recollect_async`) use the
single four-argument form `(results, limit, enable_graph_jump,
initial_relations)`, which is what is embedded here. -/

/-- Floor of a rational (executable; the denominator is positive). -/
def qfloor (q : ℚ) : ℤ := q.num.fdiv q.den

/-- Round to the nearest integer, ties to even — the behaviour of Python's
    built-in `round`. -/
def roundHalfEven (q : ℚ) : ℤ :=
  let n := qfloor q
  let frac := q - n
  if frac < 1/2 then n
  else if 1/2 < frac then n + 1
  else if n % 2 = 0 then n else n + 1

/-- Python `round(x, 4)`. -/
def round4 (q : ℚ) : ℚ := (roundHalfEven (q * 10000) : ℚ) / 10000

/-- Recollection blend weights set in `RecollectionEngine.__init__`
    (recollection.py lines 28-30). -/
def wSimilarity : ℚ := 1/2

def wImportance : ℚ := 3/10

def wRecency : ℚ := 1/5

/-- A raw vector-store search result dict, restricted to the keys
    `_process_results` reads; each may be absent.  For `createdAt`, `none`
    models a missing or empty `created_at` string; `some none` one that fails
    `datetime.fromisoformat`; `some (some d)` one that parses with
    `(now - created_at).days = d` (an integer, negative for future dates). -/
structure RItem where
  rid : Option String
  memory : Option String
  score : Option ℚ
  importanceScore : Option ℚ
  createdAt : Option (Option ℤ)
deriving DecidableEq

/-- A result dict after `item["recollection_score"] = round(blend_score, 4)`. -/
structure SItem where
  item : RItem
  recollectionScore : ℚ
deriving DecidableEq

/-- The recency computation of `_process_results` (recollection.py lines
    107-119).  The `.error` case models the uncaught `ZeroDivisionError` of
    `1.0 / (1.0 + (delta_days / 30.0))` when `delta_days = -30`; the
    `(ValueError, TypeError)` handler does not catch it. -/
def recencyScoreOf : Option (Option ℤ) → Except Unit ℚ
  | none => .ok (1/2)
  | some none => .ok (1/2)
  | some (some d) =>
    if (1 : ℚ) + (d : ℚ) / 30 = 0 then .error ()
    else .ok (1 / (1 + (d : ℚ) / 30))

/-- Scoring of one result item (recollection.py lines 102-129):
    `similarity = item.get("score", 0.5)`, `importance =
    item.get("importance_score", 1.0)`, blend with the fixed weights, round
    to 4 decimal places. -/
def scoreItem (it : RItem) : Except Unit SItem := do
  let similarity := it.score.getD (1/2)
  let importance := it.importanceScore.getD 1
  let recencyScore ← recencyScoreOf it.createdAt
  let blendScore := wSimilarity * similarity + wImportance * importance + wRecency * recencyScore
  return ⟨it, round4 blendScore⟩

/-- The scoring loop over all results, in order; an exception in one
    iteration propagates (there is no handler around the loop). -/
def scoreItems : List RItem → Except Unit (List SItem)
  | [] => .ok []
  | it :: rest => do
    let s ← scoreItem it
    let l ← scoreItems rest
    return s :: l

/-- Stable descending insert: `x` goes before the first element whose
    `recollectionScore` is strictly below its own. -/
def insertDesc (x : SItem) : List SItem → List SItem
  | [] => [x]
  | y :: ys =>
    if y.recollectionScore ≤ x.recollectionScore then x :: y :: ys
    else y :: insertDesc x ys

/-- Stable sort, descending by `recollection_score` — the behaviour of
    Python's stable `scored_results.sort(key=..., reverse=True)`
    (recollection.py line 132). -/
def sortDesc (l : List SItem) : List SItem := l.foldr insertDesc []

/-- The ranking half of `_process_results` (recollection.py lines 99-133):
    score every result, sort descending by the blended score, truncate to
    `limit` (`scored_results[:limit]`). -/
def processRank (results : List RItem) (limit : Nat) : Except Unit (List SItem) := do
  let scored ← scoreItems results
  return (sortDesc scored).take limit

/-- Modelled from the words of the ranking specification: recency is 0.5
    when `created_at` is missing or unparseable, else the 30-day decay. -/
def specRecency : Option (Option ℤ) → ℚ
  | none => 1/2
  | some none => 1/2
  | some (some d) => 1 / (1 + (d : ℚ) / 30)

/-- Modelled from the words of the ranking specification:
    `blended_score = round(0.5*similarity + 0.3*importance + 0.2*recency, 4)`
    with `similarity` defaulting to 0.5 and `importance` to 1.0. -/
def specScored (results : List RItem) : List SItem :=
  results.map (fun it =>
    ⟨it, round4 (1/2 * it.score.getD (1/2) + 3/10 * it.importanceScore.getD 1
          + 1/5 * specRecency it.createdAt)⟩)

/-! ### Associative jump and deduplication (src/mem0/recollection.py lines 135-181) -/

/-- An association dict.  `source`, `relation`, `target` are the keys the
    deduplication reads (each possibly absent); `extra` stands for the rest
    of the dict's content, so that two associations with the same triple can
    still be distinct dicts. -/
structure Association where
  source : Option String
  relation : Option String
  target : Option String
  extra : Nat
deriving DecidableEq

/-- The deduplication key `(assoc.get("source"), assoc.get("relation"), assoc.get("target"))`. -/
def Association.key (a : Association) : Option String × Option String × Option String :=
  (a.source, a.relation, a.target)

/-- The dict-based deduplication loop (recollection.py lines 176-181),
    with the set of already-seen keys made explicit. -/
def dedupAssocAux (seen : List (Option String × Option String × Option String)) :
    List Association → List Association
  | [] => []
  | a :: rest =>
    if a.key ∈ seen then dedupAssocAux seen rest
    else a :: dedupAssocAux (a.key :: seen) rest

/-- Deduplicate associations by `(source, relation, target)`, keeping the
    first occurrence of each key, in first-seen order. -/
def dedupAssoc (l : List Association) : List Association := dedupAssocAux [] l

/-- External collaborators used by the associative jump: the optional LLM
    entity extraction (`self.memory.llm`, `none` when absent) and the graph
    store search.  `.error` models a raised exception. -/
structure JumpEnv where
  llm : Option (String → Except Unit String)
  graphSearch : String → Except Unit (List Association)

/-- Query selection for one memory (recollection.py lines 148-165):
    default to the raw memory text; if an LLM is configured and the entity
    extraction succeeds with a non-empty result, use up to 3 comma-separated
    trimmed entities; an extraction failure falls back to the raw text. -/
def jumpQueries (env : JumpEnv) (memContent : String) : List String :=
  let queries := [memContent]
  match env.llm with
  | none => queries
  | some gen =>
    match gen memContent with
    | .error _ => queries
    | .ok entitiesText =>
      if entitiesText = "" then queries
      else
        let entities := ((entitiesText.splitOn ",").map String.trim).filter (fun e => e ≠ "")
        if entities = [] then queries else entities.take 3

/-- The graph searches for one memory (recollection.py lines 167-171): each
    query's results are appended; a raised `graph.search` aborts the
    remaining queries of this memory only (caught by the per-memory
    `except`), keeping what was already accumulated. -/
def jumpSearches (env : JumpEnv) (acc : List Association) : List String → List Association
  | [] => acc
  | q :: qs =>
    match env.graphSearch q with
    | .error _ => acc
    | .ok related =>
      jumpSearches env (if related = [] then acc else acc ++ related) qs

/-- The associative jump for one memory (recollection.py lines 144-173):
    skip memories with empty text (`mem.get("memory", "")`). -/
def jumpMem (env : JumpEnv) (acc : List Association) (mem : SItem) : List Association :=
  let memContent := mem.item.memory.getD ""
  if memContent = "" then acc
  else jumpSearches env acc (jumpQueries env memContent)

/-- The jump loop over the selected memories. -/
def jumpAll (env : JumpEnv) (acc : List Association) (mems : List SItem) : List Association :=
  mems.foldl (jumpMem env) acc

/-- The associations produced by the jump alone. -/
def jumpResults (env : JumpEnv) (mems : List SItem) : List Association :=
  jumpAll env [] mems

/-- The association half of `_process_results` (recollection.py lines
    135-181): start from `initial_relations`, extend with graph jumps over
    the top 2 ranked memories when graph jumping is enabled and a graph is
    configured (`enable_graph`), then deduplicate. -/
def processAssociations (env : JumpEnv) (enableGraphJump enableGraph : Bool)
    (finalMemories : List SItem) (initialRelations : List Association) :
    List Association :=
  let associations := initialRelations
  let associations :=
    if enableGraphJump && enableGraph && !finalMemories.isEmpty then
      jumpAll env associations (finalMemories.take 2)
    else associations
  dedupAssoc associations

/-! ### Memory reconciler (src/mem0/memory/sync_memory.py) -/

/-- A vector-store record: its payload dict and its embedding vector
    (embeddings are opaque collaborator output, modelled as naturals). -/
structure VecRecord where
  payload : Dict
  vec : Nat
deriving DecidableEq

/-- One row appended by `self.db.add_history`. -/
structure HistEntry where
  memId : String
  oldMem : Option Value
  newMem : Option String
  event : String
  actorId : Option Value
  role : Option Value
deriving DecidableEq

/-- The mutable state the reconciler touches: the vector store (an id-keyed
    association list), the append-only history log, the ids passed to
    `lifecycle.reinforce_memory` / `nexus.reinforce_memory`, and a counter
    supplying fresh uuids. -/
structure MemState where
  store : List (String × VecRecord)
  history : List HistEntry
  reinforcedLifecycle : List String
  reinforcedNexus : List String
  counter : Nat
deriving DecidableEq

/-- Vector-store lookup `vector_store.get(vector_id)`, `none` when absent. -/
def storeGet (st : List (String × VecRecord)) (memId : String) : Option VecRecord :=
  (st.find? (fun p => p.1 = memId)).map (·.2)

/-- External collaborators of the reconciler: content hash, clock,
    embedder, and whether a lifecycle / nexus collaborator is configured. -/
structure ReconEnv where
  md5 : String → String
  now : String
  embed : String → Nat
  hasLifecycle : Bool
  hasNexus : Bool

/-- Embedding selection shared by `_create_memory` and `_update_memory`:
    reuse a precomputed embedding for `data` when available, else call the
    embedder. -/
def pickEmbedding (env : ReconEnv) (existingEmbeddings : List (String × Nat))
    (data : String) : Nat :=
  match existingEmbeddings.find? (fun p => p.1 = data) with
  | some p => p.2
  | none => env.embed data

/-- `_create_memory` (sync_memory.py lines 1115-1147): build the payload
    (content, hash, creation time, enterprise defaults), insert the record
    under a fresh uuid, and append an ADD history row.  `metadata or ` on an
    absent dict yields the empty dict. -/
def createMemory (env : ReconEnv) (st : MemState) (data : String)
    (existingEmbeddings : List (String × Nat)) (metadata : Option Dict) :
    String × MemState :=
  let embeddings := pickEmbedding env existingEmbeddings data
  let memoryId := "uuid-" ++ toString st.counter
  let md := metadata.getD []
  let md := dset md "data" (.str data)
  let md := dset md "hash" (.str (env.md5 data))
  let md := dset md "created_at" (.str env.now)
  let md := if dhas md "org_id" then md else dset md "org_id" .null
  let md := if dhas md "team_id" then md else dset md "team_id" .null
  let md := if dhas md "visibility" then md else dset md "visibility" (.str "private")
  let md := if dhas md "importance_score" then md else dset md "importance_score" (.num 1)
  (memoryId,
   { st with
     store := st.store ++ [(memoryId, ⟨md, embeddings⟩)]
     history := st.history ++
       [⟨memoryId, none, some data, "ADD", dget md "actor_id", dget md "role"⟩]
     counter := st.counter + 1 })

/-- One carry-forward step of `_update_memory`:
    `if key not in new_metadata and key in existing_memory.payload:
       new_metadata[key] = existing_memory.payload[key]`. -/
def carryIf (src d : Dict) (k : String) : Dict :=
  if !dhas d k && dhas src k then dset d k (dgetD src k .null) else d

/-- The new payload built by `_update_memory` (sync_memory.py lines
    1199-1224): caller metadata, then content/hash/timestamps, then session
    identifiers and protected keys carried forward from the existing payload
    when the caller did not supply them, then the unconditional
    `importance_score = 1.0` reset. -/
def updatePayload (env : ReconEnv) (existingPayload : Dict) (data : String)
    (metadata : Option Dict) : Dict :=
  let nm := metadata.getD []
  let nm := dset nm "data" (.str data)
  let nm := dset nm "hash" (.str (env.md5 data))
  let nm := dset nm "created_at" (dgetD existingPayload "created_at" .null)
  let nm := dset nm "updated_at" (.str env.now)
  let nm := carryIf existingPayload nm "user_id"
  let nm := carryIf existingPayload nm "agent_id"
  let nm := carryIf existingPayload nm "run_id"
  let nm := carryIf existingPayload nm "actor_id"
  let nm := carryIf existingPayload nm "role"
  let nm := ["org_id", "team_id", "visibility", "importance_score", "is_verified"].foldl
    (carryIf existingPayload) nm
  dset nm "importance_score" (.num 1)

/-- `_update_memory` (sync_memory.py lines 1188-1248): fetch the existing
    record (`.error` models the raised `ValueError` when the store lookup
    fails), rebuild the payload with `updatePayload`, overwrite the record's
    vector and payload, and append an UPDATE history row carrying the
    previous text. -/
def updateMemory (env : ReconEnv) (st : MemState) (memoryId : String) (data : String)
    (existingEmbeddings : List (String × Nat)) (metadata : Option Dict) :
    Except Unit MemState :=
  match storeGet st.store memoryId with
  | none => .error ()
  | some existing =>
    let prevValue := dget existing.payload "data"
    let nm := updatePayload env existing.payload data metadata
    let embeddings := pickEmbedding env existingEmbeddings data
    .ok { st with
      store := st.store.map (fun p => if p.1 = memoryId then (memoryId, ⟨nm, embeddings⟩) else p)
      history := st.history ++
        [⟨memoryId, prevValue, some data, "UPDATE", dget nm "actor_id", dget nm "role"⟩] }

/-- `_delete_memory` (sync_memory.py lines 1250-1264): fetch (`.error`
    models the attribute error on a failed lookup), remove the record, and
    append a DELETE history row carrying the removed text. -/
def deleteMemory (st : MemState) (memoryId : String) : Except Unit MemState :=
  match storeGet st.store memoryId with
  | none => .error ()
  | some existing =>
    .ok { st with
      store := st.store.filter (fun p => p.1 ≠ memoryId)
      history := st.history ++
        [⟨memoryId, some (dgetD existing.payload "data" (.str "")), none, "DELETE",
          dget existing.payload "actor_id", dget existing.payload "role"⟩] }

/-- One decision entry returned by the reasoning collaborator, restricted
    to the keys the loop reads: `text`, `event`, `id`, `old_memory`, each
    possibly absent. -/
structure Decision where
  text : Option String
  event : Option String
  tempId : Option String
  oldMemory : Option String
deriving DecidableEq

/-- One entry of the returned action list (`returned_memories`).
    `previousMemory` is present only on UPDATE actions. -/
structure ReconAction where
  id : String
  memory : String
  event : String
  previousMemory : Option String
deriving DecidableEq

/-- The fallback assessment in
    `surprise_results.get(action_text, {"is_surprising": True})`: the dict
    carries only `is_surprising`; `is_flashbulb` is then read with `.get`
    (absent, hence falsy) and `best_match_id` is never read. -/
def defaultSurprise : SurpriseAssessment := ⟨true, false, none, 0⟩

/-- Resolution of a temp id: `temp_uuid_mapping.get(resp.get("id"))`,
    then the Python truthiness test `if mem_id:`. -/
def resolveTempId (tempUuidMapping : List (String × String)) (tid : Option String) :
    Option String :=
  match tid.bind (fun t => (tempUuidMapping.find? (fun p => p.1 = t)).map (·.2)) with
  | none => none
  | some memId => if memId = "" then none else some memId

/-- One iteration of the reconciliation loop of `_add_to_vector_store`
    (sync_memory.py lines 545-631).  Entries with a missing or empty `text`
    are skipped before the event dispatch; exceptions inside the body are
    caught by the per-entry `except`, skipping that entry only; an unknown
    or missing event tag matches no branch. -/
def processEntry (env : ReconEnv) (tempUuidMapping : List (String × String))
    (surpriseResults : String → Option SurpriseAssessment) (metadata : Dict)
    (newMessageEmbeddings : List (String × Nat)) (st : MemState) (resp : Decision) :
    MemState × List ReconAction :=
  match resp.text with
  | none => (st, [])
  | some actionText =>
    if actionText = "" then (st, [])
    else
      match resp.event with
      | some "ADD" =>
        let surprise := (surpriseResults actionText).getD defaultSurprise
        let reinforceTarget : Option String :=
          if surprise.isSurprising then none
          else match surprise.bestMatchId with
            | some b => if b = "" then none else some b
            | none => none
        match reinforceTarget with
        | some b =>
          let st' :=
            if env.hasLifecycle then
              { st with reinforcedLifecycle := st.reinforcedLifecycle ++ [b] }
            else if env.hasNexus then
              { st with reinforcedNexus := st.reinforcedNexus ++ [b] }
            else st
          (st', [⟨b, actionText, "REINFORCE", none⟩])
        | none =>
          let memMetadata :=
            if surprise.isFlashbulb then dset metadata "is_flashbulb" (.flag true) else metadata
          let r := createMemory env st actionText newMessageEmbeddings (some memMetadata)
          (r.2, [⟨r.1, actionText, "ADD", none⟩])
      | some "UPDATE" =>
        match resolveTempId tempUuidMapping resp.tempId with
        | none => (st, [])
        | some memId =>
          match updateMemory env st memId actionText newMessageEmbeddings (some metadata) with
          | .error _ => (st, [])
          | .ok st' => (st', [⟨memId, actionText, "UPDATE", resp.oldMemory⟩])
      | some "DELETE" =>
        match resolveTempId tempUuidMapping resp.tempId with
        | none => (st, [])
        | some memId =>
          match deleteMemory st memId with
          | .error _ => (st, [])
          | .ok st' => (st', [⟨memId, actionText, "DELETE", none⟩])
      | some "NONE" =>
        match resolveTempId tempUuidMapping resp.tempId with
        | none => (st, [])
        | some memoryId =>
          if (dgetD metadata "agent_id" .null).truthy || (dgetD metadata "run_id" .null).truthy then
            match storeGet st.store memoryId with
            | none => (st, [])
            | some existing =>
              let um := existing.payload
              let um := if (dgetD metadata "agent_id" .null).truthy then
                  dset um "agent_id" (dgetD metadata "agent_id" .null) else um
              let um := if (dgetD metadata "run_id" .null).truthy then
                  dset um "run_id" (dgetD metadata "run_id" .null) else um
              let um := dset um "updated_at" (.str env.now)
              let newStore := st.store.map
                (fun p => if p.1 = memoryId then (memoryId, ⟨um, p.2.vec⟩) else p)
              ({ st with store := newStore }, [])
          else (st, [])
      | _ => (st, [])

/-- The whole reconciliation loop, accumulating `returned_memories`. -/
def processDecisions (env : ReconEnv) (tempUuidMapping : List (String × String))
    (surpriseResults : String → Option SurpriseAssessment) (metadata : Dict)
    (newMessageEmbeddings : List (String × Nat)) (st : MemState) :
    List Decision → MemState × List ReconAction
  | [] => (st, [])
  | d :: rest =>
    let r := processEntry env tempUuidMapping surpriseResults metadata newMessageEmbeddings st d
    let r' := processDecisions env tempUuidMapping surpriseResults metadata
      newMessageEmbeddings r.1 rest
    (r'.1, r.2 ++ r'.2)

/-- Outcome of the reconciliation call to the reasoning collaborator
    (sync_memory.py lines 519-543): a raised call is turned into the empty
    response, an empty or unparseable response into the empty object, and a
    parsed object contributes its `memory` list (defaulting to empty). -/
inductive ReconResponse where
  | failure
  | empty
  | unparseable
  | parsed (memory : List Decision)
deriving DecidableEq

/-- The decision list the loop iterates over:
    `new_memories_with_actions.get("memory", [])`. -/
def decisionsOfResponse : ReconResponse → List Decision
  | .failure => []
  | .empty => []
  | .unparseable => []
  | .parsed ds => ds

/-! ### Helper lemmas about folded maxima -/

theorem le_foldl_max (a : ℚ) (l : List ℚ) : a ≤ l.foldl max a := by
  induction l generalizing a with
  | nil => simp
  | cons x xs ih => exact le_trans (le_max_left a x) (ih (max a x))

theorem mem_le_foldl_max (a x : ℚ) (l : List ℚ) (hx : x ∈ l) : x ≤ l.foldl max a := by
  induction l generalizing a with
  | nil => cases hx
  | cons y ys ih =>
    rcases List.mem_cons.mp hx with rfl | hx'
    · exact le_trans (le_max_right a x) (le_foldl_max (max a x) ys)
    · exact ih (max a y) hx'

theorem foldl_max_mem (a : ℚ) (l : List ℚ) : l.foldl max a = a ∨ l.foldl max a ∈ l := by
  induction l generalizing a with
  | nil => left; rfl
  | cons x xs ih =>
    rcases ih (max a x) with h | h
    · rcases max_choice a x with hm | hm
      · left; simp only [List.foldl_cons]; rw [h, hm]
      · right; simp only [List.foldl_cons]; rw [h, hm]; exact List.mem_cons_self x xs
    · right; exact List.mem_cons_of_mem x h

/-! ### Claims about the surprise engine -/

/-- C4: on an empty `nearby` list, `evaluate` returns exactly
    `is_surprising=true, is_flashbulb=true, best_match_id=None,
    max_similarity=0.0`; on a non-empty list whose entries all carry `id`
    and `score`, it returns (without raising) the maximum score, the id of
    the first entry attaining it, and the two threshold comparisons; the
    embedding is a pure function, so the call has no side effects.  The
    final conjunct records the default thresholds 0.92 and 0.60. -/
theorem c4_surprise_evaluate (e : SurpriseEngine) (nearby : List NearbyMem)
    (hwf : ∀ m ∈ nearby, m.score.isSome ∧ m.id.isSome) :
    (nearby = [] → e.evaluate nearby = .ok ⟨true, true, none, 0⟩) ∧
    (nearby ≠ [] → ∃ a, e.evaluate nearby = .ok a ∧
      a.maxSimilarity ∈ nearby.map (fun n => n.score.getD 0) ∧
      (∀ s ∈ nearby.map (fun n => n.score.getD 0), s ≤ a.maxSimilarity) ∧
      (∃ pre bm post, nearby = pre ++ bm :: post ∧ bm.score = some a.maxSimilarity ∧
        (∀ x ∈ pre, x.score ≠ some a.maxSimilarity) ∧ a.bestMatchId = bm.id) ∧
      (a.isSurprising = true ↔ a.maxSimilarity < e.surpriseThreshold) ∧
      (a.isFlashbulb = true ↔ a.maxSimilarity < e.flashbulbThreshold)) ∧
    SurpriseEngine.init = ⟨92/100, 60/100⟩ := by
  refine ⟨fun h => by subst h; rfl, fun hne => ?_, rfl⟩
  obtain ⟨m, rest, rfl⟩ : ∃ m rest, nearby = m :: rest := by
    cases nearby with
    | nil => exact absurd rfl hne
    | cons m rest => exact ⟨m, rest, rfl⟩
  set maxSim := rest.foldl (fun acc n => max acc (n.score.getD 0)) (m.score.getD 0) with hmax
  have hfold : maxSim = (rest.map (fun n => n.score.getD 0)).foldl max (m.score.getD 0) := by
    rw [hmax, List.foldl_map]
  have hmem : maxSim ∈ (m :: rest).map (fun n => n.score.getD 0) := by
    rcases foldl_max_mem (m.score.getD 0) (rest.map (fun n => n.score.getD 0)) with h | h
    · rw [hfold, h]; exact List.mem_cons_self _ _
    · rw [hfold]
      exact List.mem_cons_of_mem _ h
  have hub : ∀ s ∈ (m :: rest).map (fun n => n.score.getD 0), s ≤ maxSim := by
    intro s hs
    rcases List.mem_cons.mp hs with rfl | hs'
    · rw [hfold]; exact le_foldl_max _ _
    · rw [hfold]; exact mem_le_foldl_max _ _ _ hs'
  obtain ⟨n₀, hn₀mem, hn₀⟩ := List.mem_map.mp hmem
  have hn₀score : n₀.score = some maxSim := by
    obtain ⟨q, hq⟩ := Option.isSome_iff_exists.mp (hwf n₀ hn₀mem).1
    rw [hq]; rw [hq] at hn₀; simpa using hn₀
  have hfind : ((m :: rest).find? (fun n => n.score = some maxSim)).isSome := by
    rw [List.find?_isSome]
    exact ⟨n₀, hn₀mem, by simp [hn₀score]⟩
  obtain ⟨b, hb⟩ := Option.isSome_iff_exists.mp hfind
  obtain ⟨hpb, pre, post, hsplit, hpre⟩ := List.find?_eq_some.mp hb
  have hbmem : b ∈ m :: rest := by rw [hsplit]; exact List.mem_append_right _ (List.mem_cons_self _ _)
  obtain ⟨i, hi⟩ := Option.isSome_iff_exists.mp (hwf b hbmem).2
  refine ⟨⟨decide (maxSim < e.surpriseThreshold), decide (maxSim < e.flashbulbThreshold),
    some i, maxSim⟩, ?_, hmem, hub, ?_, by simp, by simp⟩
  · show SurpriseEngine.evaluate e (m :: rest) = _
    unfold SurpriseEngine.evaluate
    simp only [← hmax, hb, hi]
  · exact ⟨pre, b, post, hsplit, by simpa using hpb, fun x hx => by simpa using hpre x hx, hi.symm⟩

/-- Witness for C4 at a concrete engine and neighbour list. -/
theorem c4_surprise_evaluate_witness :
    (∀ m ∈ [NearbyMem.mk (some "m1") (some (95/100)), NearbyMem.mk (some "m2") (some (95/100))],
      m.score.isSome ∧ m.id.isSome) ∧
    (([NearbyMem.mk (some "m1") (some (95/100)), NearbyMem.mk (some "m2") (some (95/100))]
          = ([] : List NearbyMem) →
        (SurpriseEngine.init).evaluate
          [NearbyMem.mk (some "m1") (some (95/100)), NearbyMem.mk (some "m2") (some (95/100))]
          = .ok ⟨true, true, none, 0⟩) ∧
      ([NearbyMem.mk (some "m1") (some (95/100)), NearbyMem.mk (some "m2") (some (95/100))] ≠ [] →
        ∃ a, (SurpriseEngine.init).evaluate
            [NearbyMem.mk (some "m1") (some (95/100)), NearbyMem.mk (some "m2") (some (95/100))]
            = .ok a ∧
          a.maxSimilarity ∈ [NearbyMem.mk (some "m1") (some (95/100)),
              NearbyMem.mk (some "m2") (some (95/100))].map (fun n => n.score.getD 0) ∧
          (∀ s ∈ [NearbyMem.mk (some "m1") (some (95/100)),
              NearbyMem.mk (some "m2") (some (95/100))].map (fun n => n.score.getD 0),
            s ≤ a.maxSimilarity) ∧
          (∃ pre bm post,
            [NearbyMem.mk (some "m1") (some (95/100)), NearbyMem.mk (some "m2") (some (95/100))]
              = pre ++ bm :: post ∧ bm.score = some a.maxSimilarity ∧
            (∀ x ∈ pre, x.score ≠ some a.maxSimilarity) ∧ a.bestMatchId = bm.id) ∧
          (a.isSurprising = true ↔ a.maxSimilarity < (SurpriseEngine.init).surpriseThreshold) ∧
          (a.isFlashbulb = true ↔ a.maxSimilarity < (SurpriseEngine.init).flashbulbThreshold)) ∧
      SurpriseEngine.init = ⟨92/100, 60/100⟩) := by
  constructor
  · decide
  · exact c4_surprise_evaluate SurpriseEngine.init
      [NearbyMem.mk (some "m1") (some (95/100)), NearbyMem.mk (some "m2") (some (95/100))]
      (by decide)

/-- C8 counterexample: a nearby entry missing its `score` does not raise a
    validation error — `evaluate` silently defaults the score to 0.0 and
    returns a normal assessment. -/
theorem c8_counterexample :
    (SurpriseEngine.init).evaluate [⟨some "m1", none⟩] = .ok ⟨true, true, none, 0⟩ := by
  have h1 : ((0 : ℚ) < 92/100) = True := by norm_num
  have h2 : ((0 : ℚ) < 60/100) = True := by norm_num
  unfold SurpriseEngine.evaluate
  simp [SurpriseEngine.init, h1, h2]

/-- C8 amended: `evaluate` does not validate its input.  An entry missing
    `score` is silently treated as score 0.0 (and cannot be selected as the
    best match, since `None == max_similarity` is false); an entry missing
    `id` raises only when it is selected as the best match, and then an
    untyped `KeyError`, not a validation error. -/
theorem c8_malformed_silently_defaults :
    (∀ mid : Option String,
      (SurpriseEngine.init).evaluate [⟨mid, none⟩] = .ok ⟨true, true, none, 0⟩) ∧
    (SurpriseEngine.init).evaluate [⟨none, some (95/100)⟩] = .error "KeyError: id" := by
  constructor
  · intro mid
    have h1 : ((0 : ℚ) < 92/100) = True := by norm_num
    have h2 : ((0 : ℚ) < 60/100) = True := by norm_num
    unfold SurpriseEngine.evaluate
    simp [SurpriseEngine.init, h1, h2]
  · unfold SurpriseEngine.evaluate
    simp

/-- C9 counterexample: the constructor accepts thresholds that violate the
    invariant — with `surprise_threshold=0.5, flashbulb_threshold=0.9` the
    constructed engine has `flashbulb_threshold ≥ surprise_threshold`. -/
theorem c9_counterexample :
    ¬ (SurpriseEngine.init (1/2) (9/10)).flashbulbThreshold
      < (SurpriseEngine.init (1/2) (9/10)).surpriseThreshold := by
  norm_num [SurpriseEngine.init]

/-- C9 amended: the default thresholds satisfy
    `flashbulb_threshold (0.60) < surprise_threshold (0.92)`, but the
    constructor stores arbitrary caller-supplied thresholds without
    validation, so the invariant does not hold for every engine it accepts. -/
theorem c9_default_invariant :
    (SurpriseEngine.init).flashbulbThreshold < (SurpriseEngine.init).surpriseThreshold
    ∧ ∀ s f : ℚ, SurpriseEngine.init s f = ⟨s, f⟩ := by
  exact ⟨by norm_num [SurpriseEngine.init], fun s f => rfl⟩

/-! ### Lemmas about the stable descending sort -/

theorem mem_insertDesc (x y : SItem) (l : List SItem) :
    y ∈ insertDesc x l ↔ y = x ∨ y ∈ l := by
  induction l with
  | nil => simp [insertDesc]
  | cons z zs ih =>
    by_cases h : z.recollectionScore ≤ x.recollectionScore
    · simp [insertDesc, h]
    · simp [insertDesc, h, ih]
      tauto

theorem insertDesc_pairwise (x : SItem) (l : List SItem)
    (h : l.Pairwise (fun a b => b.recollectionScore ≤ a.recollectionScore)) :
    (insertDesc x l).Pairwise (fun a b => b.recollectionScore ≤ a.recollectionScore) := by
  induction l with
  | nil => simp [insertDesc]
  | cons y ys ih =>
    rcases List.pairwise_cons.mp h with ⟨hy, hys⟩
    by_cases hle : y.recollectionScore ≤ x.recollectionScore
    · simp only [insertDesc, if_pos hle]
      refine List.pairwise_cons.mpr ⟨?_, h⟩
      intro z hz
      rcases List.mem_cons.mp hz with rfl | hz'
      · exact hle
      · exact le_trans (hy z hz') hle
    · simp only [insertDesc, if_neg hle]
      refine List.pairwise_cons.mpr ⟨?_, ih hys⟩
      intro z hz
      rcases (mem_insertDesc x z ys).mp hz with rfl | hz'
      · exact le_of_lt (lt_of_not_ge hle)
      · exact hy z hz'

theorem sortDesc_pairwise (l : List SItem) :
    (sortDesc l).Pairwise (fun a b => b.recollectionScore ≤ a.recollectionScore) := by
  induction l with
  | nil => simp [sortDesc]
  | cons x xs ih => exact insertDesc_pairwise x (sortDesc xs) ih

theorem insertDesc_perm (x : SItem) (l : List SItem) :
    List.Perm (insertDesc x l) (x :: l) := by
  induction l with
  | nil => simp [insertDesc]
  | cons y ys ih =>
    by_cases hle : y.recollectionScore ≤ x.recollectionScore
    · simp [insertDesc, hle]
    · simp only [insertDesc, if_neg hle]
      exact List.Perm.trans (List.Perm.cons y ih) (List.Perm.swap x y ys)

theorem sortDesc_perm (l : List SItem) : List.Perm (sortDesc l) l := by
  induction l with
  | nil => simp [sortDesc]
  | cons x xs ih =>
    exact List.Perm.trans (insertDesc_perm x (sortDesc xs)) (List.Perm.cons x ih)

theorem filter_insertDesc (q : ℚ) (x : SItem) (l : List SItem) :
    (insertDesc x l).filter (fun s => s.recollectionScore = q)
      = if x.recollectionScore = q then x :: l.filter (fun s => s.recollectionScore = q)
        else l.filter (fun s => s.recollectionScore = q) := by
  induction l with
  | nil =>
    by_cases hxq : x.recollectionScore = q <;> simp [insertDesc, hxq]
  | cons y ys ih =>
    by_cases hle : y.recollectionScore ≤ x.recollectionScore
    · simp only [insertDesc, if_pos hle, List.filter_cons]
      split <;> simp_all
    · have hxy : x.recollectionScore < y.recollectionScore := lt_of_not_ge hle
      simp only [insertDesc, if_neg hle, List.filter_cons]
      by_cases hyq : y.recollectionScore = q
      · have hxq : x.recollectionScore ≠ q := by rw [← hyq]; exact ne_of_lt hxy
        simp [hyq, hxq, ih]
      · simp [hyq, ih]

theorem sortDesc_stable (l : List SItem) (q : ℚ) :
    (sortDesc l).filter (fun s => s.recollectionScore = q)
      = l.filter (fun s => s.recollectionScore = q) := by
  induction l with
  | nil => simp [sortDesc]
  | cons x xs ih =>
    show (insertDesc x (sortDesc xs)).filter _ = _
    rw [filter_insertDesc, ih, List.filter_cons]
    split <;> simp_all

/-! ### Lemmas about the scoring loop -/

theorem recencyScoreOf_ok (c : Option (Option ℤ)) (h : c ≠ some (some (-30 : ℤ))) :
    recencyScoreOf c = .ok (specRecency c) := by
  match c with
  | none => rfl
  | some none => rfl
  | some (some d) =>
    have hd : d ≠ -30 := by intro hd; exact h (by rw [hd])
    have hz : (1 : ℚ) + (d : ℚ) / 30 ≠ 0 := by
      intro hz
      apply hd
      have h30 : ((d : ℚ) + 30) / 30 = 0 := by rw [← hz]; ring
      have : (d : ℚ) + 30 = 0 := by
        by_contra hne
        exact hne (by
          have := div_eq_zero_iff.mp h30
          rcases this with h | h
          · exact h
          · norm_num at h)
      have : (d : ℚ) = -30 := by linarith
      exact_mod_cast this
    simp [recencyScoreOf, specRecency, hz]

theorem scoreItems_ok (results : List RItem)
    (h : ∀ it ∈ results, it.createdAt ≠ some (some (-30 : ℤ))) :
    scoreItems results = .ok (specScored results) := by
  induction results with
  | nil => rfl
  | cons it rest ih =>
    have hit := h it (List.mem_cons_self _ _)
    have hrest := ih (fun x hx => h x (List.mem_cons_of_mem _ hx))
    simp only [scoreItems, scoreItem, recencyScoreOf_ok it.createdAt hit, hrest]
    simp only [specScored, wSimilarity, wImportance, wRecency, List.map_cons]
    rfl

/-! ### Claims about the ranking (C5) -/

/-- C5 counterexample: on a candidate whose `created_at` parses to exactly
    30 days in the future (`delta_days = -30`), the ranker raises an uncaught
    `ZeroDivisionError` (`1.0 / (1.0 + (-30 / 30.0))`) instead of assigning a
    blended score, so the claim fails as a statement about every candidate
    list. -/
theorem c5_counterexample :
    processRank [⟨none, none, none, none, some (some (-30 : ℤ))⟩] 10 = .error () := by
  have hz : (1 : ℚ) + ((-30 : ℤ) : ℚ) / 30 = 0 := by norm_num
  simp only [processRank, scoreItems, scoreItem, recencyScoreOf, hz, if_pos]
  rfl

/-- C5 amended: provided no candidate's `created_at` parses to exactly 30
    days in the future, the ranker assigns each candidate
    `round(0.5*similarity + 0.3*importance + 0.2*recency, 4)` with
    `similarity` defaulting to 0.5, `importance` to 1.0 and recency to 0.5
    when `created_at` is missing or unparseable, and returns the candidates
    sorted descending by blended score — a permutation of the scored input,
    stable on ties (per-score filters preserved) — truncated to the first
    `limit`. -/
theorem c5_rank (results : List RItem) (limit : Nat)
    (h : ∀ it ∈ results, it.createdAt ≠ some (some (-30 : ℤ))) :
    processRank results limit = .ok ((sortDesc (specScored results)).take limit) ∧
    List.Perm (sortDesc (specScored results)) (specScored results) ∧
    (sortDesc (specScored results)).Pairwise
      (fun a b => b.recollectionScore ≤ a.recollectionScore) ∧
    ∀ q : ℚ, (sortDesc (specScored results)).filter (fun s => s.recollectionScore = q)
      = (specScored results).filter (fun s => s.recollectionScore = q) := by
  refine ⟨?_, sortDesc_perm _, sortDesc_pairwise _, fun q => sortDesc_stable _ q⟩
  simp [processRank, scoreItems_ok results h, Except.bind]

/-- Witness for C5 at a concrete candidate list. -/
theorem c5_rank_witness :
    (∀ it ∈ [RItem.mk (some "a") (some "ta") (some (9/10)) none none,
             RItem.mk (some "b") (some "tb") (some (2/10)) (some 1) (some none)],
      it.createdAt ≠ some (some (-30 : ℤ))) ∧
    (processRank [RItem.mk (some "a") (some "ta") (some (9/10)) none none,
        RItem.mk (some "b") (some "tb") (some (2/10)) (some 1) (some none)] 1
      = .ok ((sortDesc (specScored [RItem.mk (some "a") (some "ta") (some (9/10)) none none,
          RItem.mk (some "b") (some "tb") (some (2/10)) (some 1) (some none)])).take 1) ∧
    List.Perm (sortDesc (specScored [RItem.mk (some "a") (some "ta") (some (9/10)) none none,
        RItem.mk (some "b") (some "tb") (some (2/10)) (some 1) (some none)]))
      (specScored [RItem.mk (some "a") (some "ta") (some (9/10)) none none,
        RItem.mk (some "b") (some "tb") (some (2/10)) (some 1) (some none)]) ∧
    (sortDesc (specScored [RItem.mk (some "a") (some "ta") (some (9/10)) none none,
        RItem.mk (some "b") (some "tb") (some (2/10)) (some 1) (some none)])).Pairwise
      (fun a b => b.recollectionScore ≤ a.recollectionScore) ∧
    ∀ q : ℚ, (sortDesc (specScored [RItem.mk (some "a") (some "ta") (some (9/10)) none none,
        RItem.mk (some "b") (some "tb") (some (2/10)) (some 1) (some none)])).filter
        (fun s => s.recollectionScore = q)
      = (specScored [RItem.mk (some "a") (some "ta") (some (9/10)) none none,
          RItem.mk (some "b") (some "tb") (some (2/10)) (some 1) (some none)]).filter
        (fun s => s.recollectionScore = q)) := by
  constructor
  · decide
  · exact c5_rank [RItem.mk (some "a") (some "ta") (some (9/10)) none none,
      RItem.mk (some "b") (some "tb") (some (2/10)) (some 1) (some none)] 1 (by decide)

/-! ### Lemmas about association deduplication -/

theorem dedupAssocAux_sublist (seen : List (Option String × Option String × Option String))
    (l : List Association) : (dedupAssocAux seen l).Sublist l := by
  induction l generalizing seen with
  | nil => simp [dedupAssocAux]
  | cons a rest ih =>
    by_cases h : a.key ∈ seen
    · simp only [dedupAssocAux, if_pos h]
      exact List.Sublist.cons a (ih seen)
    · simp only [dedupAssocAux, if_neg h]
      exact List.Sublist.cons₂ a (ih (a.key :: seen))

theorem dedupAssocAux_key_notin (seen : List (Option String × Option String × Option String))
    (l : List Association) : ∀ b ∈ dedupAssocAux seen l, b.key ∉ seen := by
  induction l generalizing seen with
  | nil => simp [dedupAssocAux]
  | cons a rest ih =>
    intro b hb
    by_cases h : a.key ∈ seen
    · rw [dedupAssocAux, if_pos h] at hb
      exact ih seen b hb
    · rw [dedupAssocAux, if_neg h] at hb
      rcases List.mem_cons.mp hb with rfl | hb'
      · exact h
      · have := ih (a.key :: seen) b hb'
        exact fun hmem => this (List.mem_cons_of_mem _ hmem)

theorem dedupAssocAux_pairwise (seen : List (Option String × Option String × Option String))
    (l : List Association) :
    (dedupAssocAux seen l).Pairwise (fun a b => a.key ≠ b.key) := by
  induction l generalizing seen with
  | nil => simp [dedupAssocAux]
  | cons a rest ih =>
    by_cases h : a.key ∈ seen
    · simp only [dedupAssocAux, if_pos h]
      exact ih seen
    · simp only [dedupAssocAux, if_neg h]
      refine List.pairwise_cons.mpr ⟨?_, ih (a.key :: seen)⟩
      intro b hb
      have := dedupAssocAux_key_notin (a.key :: seen) rest b hb
      exact fun heq => this (heq ▸ List.mem_cons_self _ _)

theorem dedupAssocAux_first (seen : List (Option String × Option String × Option String))
    (l : List Association) :
    ∀ b ∈ dedupAssocAux seen l, l.find? (fun c => c.key = b.key) = some b := by
  induction l generalizing seen with
  | nil => simp [dedupAssocAux]
  | cons a rest ih =>
    intro b hb
    by_cases h : a.key ∈ seen
    · rw [dedupAssocAux, if_pos h] at hb
      have hbk : b.key ∉ seen := dedupAssocAux_key_notin seen rest b hb
      have hne : a.key ≠ b.key := fun heq => hbk (heq ▸ h)
      rw [List.find?_cons_of_neg _ (by simpa using hne), ih seen b hb]
    · rw [dedupAssocAux, if_neg h] at hb
      rcases List.mem_cons.mp hb with rfl | hb'
      · rw [List.find?_cons_of_pos _ (by simp)]
      · have hbk : b.key ∉ a.key :: seen := dedupAssocAux_key_notin (a.key :: seen) rest b hb'
        have hne : a.key ≠ b.key := fun heq => hbk (heq ▸ List.mem_cons_self _ _)
        rw [List.find?_cons_of_neg _ (by simpa using hne), ih (a.key :: seen) b hb']

theorem dedupAssocAux_covers (seen : List (Option String × Option String × Option String))
    (l : List Association) :
    ∀ a ∈ l, a.key ∈ seen ∨ ∃ b ∈ dedupAssocAux seen l, b.key = a.key := by
  induction l generalizing seen with
  | nil => simp
  | cons x rest ih =>
    intro a ha
    by_cases h : x.key ∈ seen
    · simp only [dedupAssocAux, if_pos h]
      rcases List.mem_cons.mp ha with rfl | ha'
      · exact Or.inl h
      · exact ih seen a ha'
    · simp only [dedupAssocAux, if_neg h]
      rcases List.mem_cons.mp ha with rfl | ha'
      · exact Or.inr ⟨a, List.mem_cons_self _ _, rfl⟩
      · rcases ih (x.key :: seen) a ha' with hmem | ⟨b, hb, hbk⟩
        · rcases List.mem_cons.mp hmem with heq | hmem'
          · exact Or.inr ⟨x, List.mem_cons_self _ _, heq.symm⟩
          · exact Or.inl hmem'
        · exact Or.inr ⟨b, List.mem_cons_of_mem _ hb, hbk⟩

theorem dedup_filter_single (l : List Association)
    (hp : l.Pairwise (fun a b => a.key ≠ b.key)) :
    ∀ a ∈ l, l.filter (fun b => b.key = a.key) = [a] := by
  induction l with
  | nil => simp
  | cons x rest ih =>
    intro a ha
    rcases List.pairwise_cons.mp hp with ⟨hx, hrest⟩
    rcases List.mem_cons.mp ha with rfl | ha'
    · rw [List.filter_cons_of_pos (by simp)]
      have : rest.filter (fun b => b.key = a.key) = [] := by
        rw [List.filter_eq_nil_iff]
        intro b hb
        simpa using (hx b hb).symm
      rw [this]
    · have hne : x.key ≠ a.key := hx a ha'
      rw [List.filter_cons_of_neg (by simpa using hne)]
      exact ih hrest a ha'

theorem dedupAssocAux_of_pairwise (seen : List (Option String × Option String × Option String))
    (l : List Association) (hp : l.Pairwise (fun a b => a.key ≠ b.key))
    (hseen : ∀ a ∈ l, a.key ∉ seen) : dedupAssocAux seen l = l := by
  induction l generalizing seen with
  | nil => rfl
  | cons a rest ih =>
    rcases List.pairwise_cons.mp hp with ⟨ha, hrest⟩
    have h : a.key ∉ seen := hseen a (List.mem_cons_self _ _)
    rw [dedupAssocAux, if_neg h, ih (a.key :: seen) hrest]
    intro b hb
    intro hmem
    rcases List.mem_cons.mp hmem with heq | hmem'
    · exact ha b hb heq.symm
    · exact hseen b (List.mem_cons_of_mem _ hb) hmem'

/-! ### Lemmas about the associative jump accumulator -/

theorem jumpSearches_append (env : JumpEnv) (qs : List String) (acc : List Association) :
    jumpSearches env acc qs = acc ++ jumpSearches env [] qs := by
  induction qs generalizing acc with
  | nil => simp [jumpSearches]
  | cons q qs ih =>
    simp only [jumpSearches]
    rcases hg : env.graphSearch q with e | related
    · simp
    · by_cases hrel : related = []
      · simp only [hrel, if_pos rfl, List.append_nil]
        exact ih acc
      · simp only [if_neg hrel, List.nil_append]
        rw [ih (acc ++ related), ih related, List.append_assoc]

theorem jumpMem_append (env : JumpEnv) (mem : SItem) (acc : List Association) :
    jumpMem env acc mem = acc ++ jumpMem env [] mem := by
  unfold jumpMem
  by_cases h : mem.item.memory.getD "" = ""
  · simp [h]
  · simp only [if_neg h]
    exact jumpSearches_append env _ acc

theorem jumpAll_append (env : JumpEnv) (mems : List SItem) (acc : List Association) :
    jumpAll env acc mems = acc ++ jumpAll env [] mems := by
  induction mems generalizing acc with
  | nil => simp [jumpAll]
  | cons m ms ih =>
    show jumpAll env (jumpMem env acc m) ms = acc ++ jumpAll env (jumpMem env [] m) ms
    rw [ih (jumpMem env acc m), ih (jumpMem env [] m), jumpMem_append env m acc,
      List.append_assoc]

/-! ### Claims about the associative jump expander (C6, C7) -/

/-- C6 counterexample: with graph jumping disabled, two distinct initial
    associations carrying the same `(source, relation, target)` triple are
    collapsed to the first one — the dedup at the end of `_process_results`
    runs even when the jump is disabled, so the input is not returned
    unchanged. -/
theorem c6_counterexample :
    processAssociations ⟨none, fun _ => .ok []⟩ false true []
        [⟨some "s", some "r", some "t", 0⟩, ⟨some "s", some "r", some "t", 1⟩]
      = [⟨some "s", some "r", some "t", 0⟩] ∧
    processAssociations ⟨none, fun _ => .ok []⟩ false true []
        [⟨some "s", some "r", some "t", 0⟩, ⟨some "s", some "r", some "t", 1⟩]
      ≠ [⟨some "s", some "r", some "t", 0⟩, ⟨some "s", some "r", some "t", 1⟩] := by
  constructor
  · rfl
  · decide

/-- C6 amended: if graph jumping is disabled or no graph collaborator is
    configured, the expander returns `initial_associations` deduplicated by
    `(source, relation, target)` (first occurrence kept, first-seen order);
    in particular it is returned unchanged whenever no two input
    associations share a triple. -/
theorem c6_disabled_returns_initial (env : JumpEnv) (gj g : Bool) (mems : List SItem)
    (initialRelations : List Association) (h : gj = false ∨ g = false) :
    processAssociations env gj g mems initialRelations = dedupAssoc initialRelations ∧
    (initialRelations.Pairwise (fun a b => a.key ≠ b.key) →
      processAssociations env gj g mems initialRelations = initialRelations) := by
  have hcond : (gj && g && !mems.isEmpty) = false := by
    rcases h with rfl | rfl <;> simp
  constructor
  · simp [processAssociations, hcond]
  · intro hp
    simp [processAssociations, hcond, dedupAssoc,
      dedupAssocAux_of_pairwise [] initialRelations hp (by simp)]

/-- Witness for C6 at a concrete disabled call. -/
theorem c6_disabled_returns_initial_witness :
    (false = false ∨ true = false) ∧
    (processAssociations ⟨none, fun _ => .ok []⟩ false true []
        [⟨some "s", some "r", some "t", 0⟩, ⟨some "u", some "r", some "t", 1⟩]
      = dedupAssoc [⟨some "s", some "r", some "t", 0⟩, ⟨some "u", some "r", some "t", 1⟩] ∧
    (List.Pairwise (fun a b => a.key ≠ b.key)
        [Association.mk (some "s") (some "r") (some "t") 0,
         Association.mk (some "u") (some "r") (some "t") 1] →
      processAssociations ⟨none, fun _ => .ok []⟩ false true []
          [⟨some "s", some "r", some "t", 0⟩, ⟨some "u", some "r", some "t", 1⟩]
        = [⟨some "s", some "r", some "t", 0⟩, ⟨some "u", some "r", some "t", 1⟩])) := by
  constructor
  · left; rfl
  · exact c6_disabled_returns_initial ⟨none, fun _ => .ok []⟩ false true []
      [⟨some "s", some "r", some "t", 0⟩, ⟨some "u", some "r", some "t", 1⟩] (Or.inl rfl)

/-- C7: with graph jumping enabled and a graph configured, the returned
    association list is `initial_associations ++ jump_results` deduplicated
    by exact `(source, relation, target)` equality: the result is a sublist
    of the concatenation (first-seen order preserved), its triples are
    pairwise distinct, every kept element is the first occurrence of its
    triple, each kept triple occurs exactly once, and every input triple
    survives in exactly one representative. -/
theorem c7_expansion (env : JumpEnv) (mems : List SItem)
    (initialRelations : List Association) :
    processAssociations env true true mems initialRelations
      = dedupAssoc (initialRelations ++ jumpResults env (mems.take 2)) ∧
    (processAssociations env true true mems initialRelations).Sublist
      (initialRelations ++ jumpResults env (mems.take 2)) ∧
    (processAssociations env true true mems initialRelations).Pairwise
      (fun a b => a.key ≠ b.key) ∧
    (∀ a ∈ processAssociations env true true mems initialRelations,
      (initialRelations ++ jumpResults env (mems.take 2)).find? (fun c => c.key = a.key)
          = some a ∧
      (processAssociations env true true mems initialRelations).filter
          (fun b => b.key = a.key) = [a]) ∧
    ∀ a ∈ initialRelations ++ jumpResults env (mems.take 2),
      ∃ b ∈ processAssociations env true true mems initialRelations, b.key = a.key := by
  have hmain : processAssociations env true true mems initialRelations
      = dedupAssoc (initialRelations ++ jumpResults env (mems.take 2)) := by
    by_cases hm : mems.isEmpty
    · have : mems = [] := by simpa [List.isEmpty_iff] using hm
      subst this
      simp [processAssociations, jumpResults, jumpAll]
    · simp only [processAssociations, hm, Bool.not_false, Bool.and_true, Bool.and_self]
      rw [jumpAll_append env (mems.take 2) initialRelations]
      rfl
  refine ⟨hmain, ?_, ?_, ?_, ?_⟩
  · rw [hmain]; exact dedupAssocAux_sublist [] _
  · rw [hmain]; exact dedupAssocAux_pairwise [] _
  · intro a ha
    rw [hmain] at ha
    refine ⟨dedupAssocAux_first [] _ a ha, ?_⟩
    rw [hmain]
    exact dedup_filter_single _ (dedupAssocAux_pairwise [] _) a ha
  · intro a ha
    rcases dedupAssocAux_covers [] (initialRelations ++ jumpResults env (mems.take 2)) a ha
      with hmem | ⟨b, hb, hbk⟩
    · cases hmem
    · exact ⟨b, by rw [hmain]; exact hb, hbk⟩

/-! ### Lemmas about the update payload -/

theorem storeGet_map_replace (l : List (String × VecRecord)) (mid : String) (r : VecRecord)
    (h : (storeGet l mid).isSome) :
    storeGet (l.map (fun p => if p.1 = mid then (mid, r) else p)) mid = some r := by
  induction l with
  | nil => simp [storeGet] at h
  | cons p rest ih =>
    by_cases hp : p.1 = mid
    · simp [storeGet, List.find?, hp]
    · have h' : (storeGet rest mid).isSome := by
        simpa [storeGet, List.find?, hp] using h
      simpa [storeGet, List.find?, hp] using ih h'

theorem dget_carryIf_ne (src d : Dict) (k k' : String) (h : k' ≠ k) :
    dget (carryIf src d k') k = dget d k := by
  unfold carryIf
  exact dget_ite_dset _ _ _ _ _ h

theorem dhas_carryIf_ne (src d : Dict) (k k' : String) (h : k' ≠ k) :
    dhas (carryIf src d k') k = dhas d k := by
  unfold carryIf
  exact dhas_ite_dset _ _ _ _ _ h

theorem dget_carryIf_self (src d : Dict) (k : String) (w : Value)
    (hd : dhas d k = false) (hs : dget src k = some w) :
    dget (carryIf src d k) k = some w := by
  have hsh : dhas src k = true := by simp [dhas, hs]
  unfold carryIf
  rw [if_pos (by rw [hd, hsh]; rfl), dget_dset_self, dgetD, hs]
  rfl

theorem updatePayload_importance (env : ReconEnv) (p : Dict) (data : String)
    (md : Option Dict) :
    dget (updatePayload env p data md) "importance_score" = some (.num 1) :=
  dget_dset_self _ _ _

theorem updatePayload_created (env : ReconEnv) (p : Dict) (data : String) (md : Dict)
    (v : Value) (hv : dget p "created_at" = some v) :
    dget (updatePayload env p data (some md)) "created_at" = some v := by
  simp only [updatePayload, Option.getD_some, List.foldl_cons, List.foldl_nil]
  rw [dget_dset_ne _ _ _ _ (by decide)]
  rw [dget_carryIf_ne _ _ _ _ (by decide), dget_carryIf_ne _ _ _ _ (by decide),
    dget_carryIf_ne _ _ _ _ (by decide), dget_carryIf_ne _ _ _ _ (by decide),
    dget_carryIf_ne _ _ _ _ (by decide), dget_carryIf_ne _ _ _ _ (by decide),
    dget_carryIf_ne _ _ _ _ (by decide), dget_carryIf_ne _ _ _ _ (by decide),
    dget_carryIf_ne _ _ _ _ (by decide), dget_carryIf_ne _ _ _ _ (by decide)]
  rw [dget_dset_ne _ _ _ _ (by decide), dget_dset_self, dgetD, hv]
  rfl

theorem updatePayload_carries (env : ReconEnv) (p : Dict) (data : String) (md : Dict)
    (k : String)
    (hk : k ∈ ["user_id", "agent_id", "run_id", "actor_id", "role",
               "org_id", "team_id", "visibility"])
    (hmd : dget md k = none) (hp : (dget p k).isSome) :
    dget (updatePayload env p data (some md)) k = dget p k := by
  obtain ⟨w, hw⟩ := Option.isSome_iff_exists.mp hp
  have hmdh : dhas md k = false := by simp [dhas, hmd]
  have hph : dhas p k = true := by simp [dhas, hw]
  fin_cases hk <;>
    simp [updatePayload, List.foldl_cons, List.foldl_nil, dget_dset_self, hw, dgetD,
      dget_dset_ne, dhas_dset_ne, dget_carryIf_ne, dhas_carryIf_ne, dget_carryIf_self,
      hmdh, hph, hmd]

/-! ### Claims about the reconciliation loop (C1, C2, C3, C10) -/

/-- C1 counterexample: the reinforcement branch tests Python truthiness of
    `best_match_id`, not non-nullness.  With a non-null but empty-string
    `best_match_id`, an ADD decision with a non-surprising assessment falls
    through to record creation: the returned action is ADD (not REINFORCE)
    and a new record is inserted into the store. -/
theorem c1_counterexample :
    ((processEntry ⟨fun _ => "h", "T", fun _ => 0, true, false⟩ []
        (fun t => if t = "fact" then some ⟨false, false, some "", 1⟩ else none) [] []
        ⟨[], [], [], [], 0⟩ ⟨some "fact", some "ADD", none, none⟩).2.map
        (fun a => a.event) = ["ADD"]) ∧
    (processEntry ⟨fun _ => "h", "T", fun _ => 0, true, false⟩ []
        (fun t => if t = "fact" then some ⟨false, false, some "", 1⟩ else none) [] []
        ⟨[], [], [], [], 0⟩ ⟨some "fact", some "ADD", none, none⟩).1.store.length = 1 := by
  constructor <;> rfl

/-- C1 amended: for an ADD decision whose fact text has a precomputed
    assessment with `is_surprising == false` and a non-null, non-empty
    (truthy) `best_match_id`, the reconciler creates no record, leaves the
    history untouched, appends exactly the single action
    `(REINFORCE, best_match_id, fact text)`, and calls the lifecycle
    collaborator's reinforce on that id when one is configured (else the
    nexus fallback when that is configured). -/
theorem c1_add_reinforces (env : ReconEnv) (tm : List (String × String))
    (sr : String → Option SurpriseAssessment) (md : Dict) (emb : List (String × Nat))
    (st : MemState) (d : Decision) (t b : String) (a : SurpriseAssessment)
    (htext : d.text = some t) (hne : t ≠ "") (hevent : d.event = some "ADD")
    (hsr : sr t = some a) (hsurp : a.isSurprising = false)
    (hbest : a.bestMatchId = some b) (hb : b ≠ "") :
    processEntry env tm sr md emb st d =
      ({ st with
          reinforcedLifecycle := st.reinforcedLifecycle
            ++ (if env.hasLifecycle then [b] else []),
          reinforcedNexus := st.reinforcedNexus
            ++ (if !env.hasLifecycle && env.hasNexus then [b] else []) },
        [⟨b, t, "REINFORCE", none⟩]) := by
  simp only [processEntry, htext, hsr, Option.getD_some, hsurp, hbest, if_neg hne,
    if_neg hb, hevent, Bool.false_eq_true, if_false]
  by_cases hl : env.hasLifecycle
  · simp [hl]
  · by_cases hn : env.hasNexus <;> simp [hl, hn]

/-- Witness for C1 at a concrete reinforcement call. -/
theorem c1_add_reinforces_witness :
    ((Decision.mk (some "fact") (some "ADD") none none).text = some "fact" ∧
     "fact" ≠ "" ∧
     (Decision.mk (some "fact") (some "ADD") none none).event = some "ADD" ∧
     (fun t => if t = "fact" then some (SurpriseAssessment.mk false false (some "m1") 1)
               else none) "fact" = some (SurpriseAssessment.mk false false (some "m1") 1) ∧
     (SurpriseAssessment.mk false false (some "m1") 1).isSurprising = false ∧
     (SurpriseAssessment.mk false false (some "m1") 1).bestMatchId = some "m1" ∧
     "m1" ≠ "") ∧
    processEntry ⟨fun _ => "h", "T", fun _ => 0, true, false⟩ []
        (fun t => if t = "fact" then some (SurpriseAssessment.mk false false (some "m1") 1)
                  else none) [] [] ⟨[], [], [], [], 0⟩
        (Decision.mk (some "fact") (some "ADD") none none) =
      ({ MemState.mk [] [] [] [] 0 with
          reinforcedLifecycle := ([] : List String)
            ++ (if (ReconEnv.mk (fun _ => "h") "T" (fun _ => 0) true false).hasLifecycle
                then ["m1"] else []),
          reinforcedNexus := ([] : List String)
            ++ (if !(ReconEnv.mk (fun _ => "h") "T" (fun _ => 0) true false).hasLifecycle
                  && (ReconEnv.mk (fun _ => "h") "T" (fun _ => 0) true false).hasNexus
                then ["m1"] else []) },
        [⟨"m1", "fact", "REINFORCE", none⟩]) := by
  constructor
  · exact ⟨rfl, by decide, rfl, by simp, rfl, rfl, by decide⟩
  · exact c1_add_reinforces ⟨fun _ => "h", "T", fun _ => 0, true, false⟩ []
      (fun t => if t = "fact" then some (SurpriseAssessment.mk false false (some "m1") 1)
                else none) [] [] ⟨[], [], [], [], 0⟩
      (Decision.mk (some "fact") (some "ADD") none none) "fact" "m1"
      (SurpriseAssessment.mk false false (some "m1") 1)
      rfl (by decide) rfl (by simp) rfl rfl (by decide)

/-- C2: when the reconciliation call to the reasoning collaborator raises,
    or returns empty or unparseable output, the decision list degrades to
    empty and the loop returns the unchanged state with an empty action
    list: no record is created, updated or deleted, no reinforcement
    happens, and — the embedding being a total function — no exception
    propagates. -/
theorem c2_degraded_to_no_actions (env : ReconEnv) (tm : List (String × String))
    (sr : String → Option SurpriseAssessment) (md : Dict) (emb : List (String × Nat))
    (st : MemState) (r : ReconResponse)
    (h : r = ReconResponse.failure ∨ r = ReconResponse.empty ∨ r = ReconResponse.unparseable) :
    processDecisions env tm sr md emb st (decisionsOfResponse r) = (st, []) := by
  rcases h with rfl | rfl | rfl <;> rfl

/-- Witness for C2 at a concrete failed reconciliation call. -/
theorem c2_degraded_to_no_actions_witness :
    (ReconResponse.failure = ReconResponse.failure ∨
     ReconResponse.failure = ReconResponse.empty ∨
     ReconResponse.failure = ReconResponse.unparseable) ∧
    processDecisions ⟨fun _ => "h", "T", fun _ => 0, true, false⟩ [] (fun _ => none) [] []
        ⟨[("m1", ⟨[("data", Value.str "x")], 7⟩)], [], [], [], 0⟩
        (decisionsOfResponse ReconResponse.failure)
      = (⟨[("m1", ⟨[("data", Value.str "x")], 7⟩)], [], [], [], 0⟩, []) := by
  constructor
  · left; rfl
  · exact c2_degraded_to_no_actions ⟨fun _ => "h", "T", fun _ => 0, true, false⟩ []
      (fun _ => none) [] [] ⟨[("m1", ⟨[("data", Value.str "x")], 7⟩)], [], [], [], 0⟩
      ReconResponse.failure (Or.inl rfl)

/-- C3: a successful `_update_memory` resets the record's
    `importance_score` to 1.0, carries forward every scoping field and
    protected metadata key present on the prior record and not supplied in
    the caller's metadata, preserves `created_at`, and appends an UPDATE
    history row recording the previous text. -/
theorem c3_update_preserves (env : ReconEnv) (st : MemState) (mid data : String)
    (emb : List (String × Nat)) (md : Dict) (rec : VecRecord)
    (hget : storeGet st.store mid = some rec) :
    ∃ st', updateMemory env st mid data emb (some md) = .ok st' ∧
      storeGet st'.store mid
        = some ⟨updatePayload env rec.payload data (some md), pickEmbedding env emb data⟩ ∧
      dget (updatePayload env rec.payload data (some md)) "importance_score"
        = some (.num 1) ∧
      (∀ k ∈ ["user_id", "agent_id", "run_id", "actor_id", "role",
              "org_id", "team_id", "visibility"],
        dget md k = none → (dget rec.payload k).isSome →
          dget (updatePayload env rec.payload data (some md)) k = dget rec.payload k) ∧
      (∀ v, dget rec.payload "created_at" = some v →
        dget (updatePayload env rec.payload data (some md)) "created_at" = some v) ∧
      ∃ e, st'.history = st.history ++ [e] ∧ e.memId = mid ∧
        e.oldMem = dget rec.payload "data" ∧ e.newMem = some data ∧ e.event = "UPDATE" := by
  have hs : (storeGet st.store mid).isSome := by rw [hget]; rfl
  have hok : updateMemory env st mid data emb (some md) = .ok
      { st with
        store := st.store.map (fun p => if p.1 = mid then
          (mid, ⟨updatePayload env rec.payload data (some md),
                 pickEmbedding env emb data⟩) else p)
        history := st.history ++
          [⟨mid, dget rec.payload "data", some data, "UPDATE",
            dget (updatePayload env rec.payload data (some md)) "actor_id",
            dget (updatePayload env rec.payload data (some md)) "role"⟩] } := by
    rw [updateMemory, hget]
  refine ⟨_, hok, storeGet_map_replace st.store mid _ hs,
    updatePayload_importance env rec.payload data (some md), ?_, ?_, ?_⟩
  · intro k hk hmd hp
    exact updatePayload_carries env rec.payload data md k hk hmd hp
  · intro v hv
    exact updatePayload_created env rec.payload data md v hv
  · exact ⟨_, rfl, rfl, rfl, rfl, rfl⟩

/-- Witness for C3 at a concrete record and update. -/
theorem c3_update_preserves_witness :
    (storeGet (MemState.mk
        [("m7", ⟨[("data", Value.str "old"), ("agent_id", Value.str "a1"),
                  ("created_at", Value.str "C")], 3⟩)] [] [] [] 0).store "m7"
      = some ⟨[("data", Value.str "old"), ("agent_id", Value.str "a1"),
               ("created_at", Value.str "C")], 3⟩) ∧
    ∃ st', updateMemory ⟨fun _ => "h", "T", fun _ => 0, true, false⟩
        (MemState.mk
          [("m7", ⟨[("data", Value.str "old"), ("agent_id", Value.str "a1"),
                    ("created_at", Value.str "C")], 3⟩)] [] [] [] 0)
        "m7" "new" [] (some [("user_id", Value.str "u")]) = .ok st' ∧
      storeGet st'.store "m7"
        = some ⟨updatePayload ⟨fun _ => "h", "T", fun _ => 0, true, false⟩
            [("data", Value.str "old"), ("agent_id", Value.str "a1"),
             ("created_at", Value.str "C")] "new" (some [("user_id", Value.str "u")]),
          pickEmbedding ⟨fun _ => "h", "T", fun _ => 0, true, false⟩ [] "new"⟩ ∧
      dget (updatePayload ⟨fun _ => "h", "T", fun _ => 0, true, false⟩
          [("data", Value.str "old"), ("agent_id", Value.str "a1"),
           ("created_at", Value.str "C")] "new" (some [("user_id", Value.str "u")]))
        "importance_score" = some (.num 1) ∧
      (∀ k ∈ ["user_id", "agent_id", "run_id", "actor_id", "role",
              "org_id", "team_id", "visibility"],
        dget [("user_id", Value.str "u")] k = none →
        (dget [("data", Value.str "old"), ("agent_id", Value.str "a1"),
               ("created_at", Value.str "C")] k).isSome →
          dget (updatePayload ⟨fun _ => "h", "T", fun _ => 0, true, false⟩
              [("data", Value.str "old"), ("agent_id", Value.str "a1"),
               ("created_at", Value.str "C")] "new" (some [("user_id", Value.str "u")])) k
            = dget [("data", Value.str "old"), ("agent_id", Value.str "a1"),
                    ("created_at", Value.str "C")] k) ∧
      (∀ v, dget [("data", Value.str "old"), ("agent_id", Value.str "a1"),
                  ("created_at", Value.str "C")] "created_at" = some v →
        dget (updatePayload ⟨fun _ => "h", "T", fun _ => 0, true, false⟩
            [("data", Value.str "old"), ("agent_id", Value.str "a1"),
             ("created_at", Value.str "C")] "new" (some [("user_id", Value.str "u")]))
          "created_at" = some v) ∧
      ∃ e, st'.history = (MemState.mk
          [("m7", ⟨[("data", Value.str "old"), ("agent_id", Value.str "a1"),
                    ("created_at", Value.str "C")], 3⟩)] [] [] [] 0).history ++ [e] ∧
        e.memId = "m7" ∧
        e.oldMem = dget [("data", Value.str "old"), ("agent_id", Value.str "a1"),
                         ("created_at", Value.str "C")] "data" ∧
        e.newMem = some "new" ∧ e.event = "UPDATE" := by
  constructor
  · rfl
  · exact c3_update_preserves ⟨fun _ => "h", "T", fun _ => 0, true, false⟩
      (MemState.mk
        [("m7", ⟨[("data", Value.str "old"), ("agent_id", Value.str "a1"),
                  ("created_at", Value.str "C")], 3⟩)] [] [] [] 0)
      "m7" "new" [] [("user_id", Value.str "u")]
      ⟨[("data", Value.str "old"), ("agent_id", Value.str "a1"),
        ("created_at", Value.str "C")], 3⟩ rfl

/-- C10: a decision entry with a missing or empty `text` field is skipped
    before the event dispatch — even an UPDATE or DELETE carrying a valid,
    resolvable temp id applies no mutation and contributes no action. -/
theorem c10_skip_empty_text (env : ReconEnv) (tm : List (String × String))
    (sr : String → Option SurpriseAssessment) (md : Dict) (emb : List (String × Nat))
    (st : MemState) (d : Decision) (h : d.text = none ∨ d.text = some "") :
    processEntry env tm sr md emb st d = (st, []) := by
  rcases h with h | h <;> simp [processEntry, h]

/-- Witness for C10: an UPDATE decision with an empty text and a valid,
    resolvable temp id mutates nothing and yields no action. -/
theorem c10_skip_empty_text_witness :
    ((Decision.mk (some "") (some "UPDATE") (some "0") none).text = none ∨
     (Decision.mk (some "") (some "UPDATE") (some "0") none).text = some "") ∧
    processEntry ⟨fun _ => "h", "T", fun _ => 0, true, false⟩ [("0", "m7")]
        (fun _ => none) [] []
        ⟨[("m7", ⟨[("data", Value.str "old")], 5⟩)], [], [], [], 0⟩
        (Decision.mk (some "") (some "UPDATE") (some "0") none)
      = (⟨[("m7", ⟨[("data", Value.str "old")], 5⟩)], [], [], [], 0⟩, []) := by
  constructor
  · right; rfl
  · exact c10_skip_empty_text ⟨fun _ => "h", "T", fun _ => 0, true, false⟩ [("0", "m7")]
      (fun _ => none) [] [] ⟨[("m7", ⟨[("data", Value.str "old")], 5⟩)], [], [], [], 0⟩
      (Decision.mk (some "") (some "UPDATE") (some "0") none) (Or.inr rfl)

end Mem0
